import Mathlib

namespace ProteinBee

/-- Error kinds raised by the Python code: ValueError (validation and unpacking
failures), IndexError (pop from an empty list), AssertionError (failed assert). -/
inductive Err : Type
  | valueError
  | indexError
  | assertionError
deriving DecidableEq

instance {ε α : Type} [DecidableEq ε] [DecidableEq α] : DecidableEq (Except ε α) := fun x y =>
  match x, y with
  | .error a, .error b =>
    match decEq a b with
    | isTrue h => isTrue (congrArg Except.error h)
    | isFalse h => isFalse fun hh => h (Except.error.inj hh)
  | .ok a, .ok b =>
    match decEq a b with
    | isTrue h => isTrue (congrArg Except.ok h)
    | isFalse h => isFalse fun hh => h (Except.ok.inj hh)
  | .error _, .ok _ => isFalse fun hh => Except.noConfusion hh
  | .ok _, .error _ => isFalse fun hh => Except.noConfusion hh

/-- ASCII decimal digit, the character class [0-9] of the selector pattern. -/
def isDigitChar (c : Char) : Bool := 48 ≤ c.toNat && c.toNat ≤ 57

/-- ASCII uppercase letter, the character class [A-Z] of the selector pattern. -/
def isUpperChar (c : Char) : Bool := 65 ≤ c.toNat && c.toNat ≤ 90

/-- Python str.isnumeric on the ASCII strings of the motif grammar:
nonempty and all characters decimal digits. -/
def pyIsNumeric (l : List Char) : Bool := !l.isEmpty && l.all isDigitChar

/-- Value of a decimal digit string, as Python int() computes it on digit strings. -/
def strToNat (l : List Char) : Nat := l.foldl (fun a c => a * 10 + (c.toNat - 48)) 0

/-- The character of a decimal digit. -/
def digitChar (d : Nat) : Char := Char.ofNat (d + 48)

/-- Digits of n, most significant first, empty for 0; fuel-structural so that
it reduces definitionally (the fuel is immaterial as long as it is at least n). -/
def natToStrAux : Nat → Nat → List Char
  | 0, _ => []
  | fuel + 1, n => if n = 0 then [] else natToStrAux fuel (n / 10) ++ [digitChar (n % 10)]

/-- Python str() of a natural number. -/
def natToStr (n : Nat) : List Char := if n = 0 then ['0'] else natToStrAux n n

/-- Python str() of an integer. -/
def intToStr (i : Int) : List Char :=
  if i < 0 then '-' :: natToStr i.natAbs else natToStr i.toNat

/-- Python s.split(sep) for a single-character separator sep (the spec fixes
the motif delimiter to a single character). -/
def pySplit (c : Char) : List Char → List (List Char)
  | [] => [[]]
  | x :: xs =>
    if x = c then [] :: pySplit c xs
    else
      match pySplit c xs with
      | [] => [[x]]
      | t :: ts => (x :: t) :: ts

/-- Python sep.join for a single-character separator. -/
def joinWith (c : Char) : List (List Char) → List Char
  | [] => []
  | [t] => t
  | t :: ts => t ++ c :: joinWith c ts

/-- A contiguous chain-range token such as A786-790 (motif.py, class Selector). -/
structure Selector : Type where
  chain : Char
  start : Int
  «end» : Int
deriving DecidableEq

/-- A run of one to five decimal digits. -/
def digitRun1to5 (l : List Char) : Bool :=
  1 ≤ l.length && l.length ≤ 5 && l.all isDigitChar

/-- Regex fullmatch of the selector pattern [A-Z][0-9]-runs with an optional
hyphen: an uppercase letter followed by some decomposition d1 ++ h ++ d2 where
d1 and d2 are runs of 1 to 5 digits and h is a hyphen or empty. -/
def selectorPatternMatch : List Char → Bool
  | [] => false
  | u :: rest =>
    isUpperChar u &&
    (List.range (rest.length + 1)).any (fun i =>
      digitRun1to5 (rest.take i) &&
      (digitRun1to5 (rest.drop i) ||
        (match rest.drop i with
         | '-' :: d2 => digitRun1to5 d2
         | _ => false)))

/-- Selector._pattern_check: raise ValueError unless the pattern matches. -/
def Selector.patternCheck (s : List Char) : Except Err Unit :=
  if selectorPatternMatch s then .ok () else .error .valueError

/-- Selector._range_check on an already split list: it unpacks exactly two
parts r1, r2 (ValueError otherwise) and requires int(r1) <= int(r2). -/
def Selector.rangeCheck (range_ : List (List Char)) : Except Err Unit :=
  match range_ with
  | [r1, r2] => if strToNat r1 ≤ strToNat r2 then .ok () else .error .valueError
  | _ => .error .valueError

/-- Selector.from_string: pattern check, split the part after the chain letter
on the hyphen, range check, then build the selector from the two bounds. -/
def Selector.from_string (s : List Char) : Except Err Selector :=
  match Selector.patternCheck s with
  | .error e => .error e
  | .ok _ =>
    match s with
    | [] => .error .valueError
    | c :: rest =>
      match Selector.rangeCheck (pySplit '-' rest) with
      | .error e => .error e
      | .ok _ =>
        match pySplit '-' rest with
        | r1 :: r2 :: _ => .ok ⟨c, (strToNat r1 : Int), (strToNat r2 : Int)⟩
        | _ => .error .valueError

/-- Selector.check_string: the Python body is a conjunction whose left operand
_pattern_check returns None on success, so the conjunction short-circuits to
None (a falsy non-boolean) and the range check is never evaluated; on pattern
failure the ValueError raised by _pattern_check propagates. The returned Python
value is modelled as Option Bool with none standing for Python None. -/
def Selector.check_string (s : List Char) : Except Err (Option Bool) :=
  match Selector.patternCheck s with
  | .error e => .error e
  | .ok _ => .ok none

/-- Selector.__len__: end - start + 1. -/
def Selector.len (s : Selector) : Int := s.«end» - s.start + 1

/-- Selector.__str__. -/
def Selector.pyStr (s : Selector) : List Char :=
  s.chain :: (intToStr s.start ++ '-' :: intToStr s.«end»)

/-- A motif component: a Selector or a Python int. -/
inductive Component : Type
  | sel (s : Selector)
  | int (n : Int)
deriving DecidableEq

/-- Motif (motif.py): an ordered component list plus the delimiter. -/
structure Motif : Type where
  components : List Component
  delim : Char
deriving DecidableEq

/-- Token classification in Motif.from_string: numeric tokens and the literal
-1 become ints, everything else must parse as a Selector. -/
def classifyToken (t : List Char) : Except Err Component :=
  if pyIsNumeric t then .ok (.int (strToNat t))
  else if t = ['-', '1'] then .ok (.int (-1))
  else
    match Selector.from_string t with
    | .ok s => .ok (.sel s)
    | .error e => .error e

/-- The loop of Motif.from_string over the split tokens; the first failing
token aborts the construction. -/
def classifyAll : List (List Char) → Except Err (List Component)
  | [] => .ok []
  | t :: ts =>
    match classifyToken t with
    | .error e => .error e
    | .ok comp =>
      match classifyAll ts with
      | .error e => .error e
      | .ok comps => .ok (comp :: comps)

/-- Motif.from_string: split on the delimiter and classify every token. -/
def Motif.from_string (s : List Char) (delim : Char) : Except Err Motif :=
  match classifyAll (pySplit delim s) with
  | .error e => .error e
  | .ok comps => .ok ⟨comps, delim⟩

/-- str() of one component. -/
def componentStr : Component → List Char
  | .sel s => s.pyStr
  | .int n => intToStr n

/-- Motif.__str__: join the component strings with the stored delimiter. -/
def Motif.pyStr (m : Motif) : List Char := joinWith m.delim (m.components.map componentStr)

/-- Motif.selector_iter: the Selector components, in order. -/
def Motif.selector_iter (m : Motif) : List Selector :=
  m.components.filterMap fun c =>
    match c with
    | .sel s => some s
    | .int _ => none

/-- Motif.segment_iter: the int components other than -1, in order. -/
def Motif.segment_iter (m : Motif) : List Int :=
  m.components.filterMap fun c =>
    match c with
    | .int n => if n = -1 then none else some n
    | .sel _ => none

/-- The successive tokens written into m_str by get_motif_wrt_designed_structure,
threading the running position cursor (which starts at 1). -/
def designTokens (chain_id : Char) : List Component → Int → List (List Char)
  | [], _ => []
  | .int n :: rest, pos => intToStr n :: designTokens chain_id rest (pos + n)
  | .sel s :: rest, pos =>
    (chain_id :: (intToStr pos ++ '-' :: intToStr (pos + s.len - 1))) ::
      designTokens chain_id rest (pos + s.len)

/-- Motif.get_motif_wrt_designed_structure: build m_str by appending every
token followed by a slash, drop the trailing slash, and re-parse the string
with the default delimiter slash. -/
def Motif.get_motif_wrt_designed_structure (m : Motif) (chain_id : Char) : Except Err Motif :=
  Motif.from_string
    (List.dropLast (List.flatten ((designTokens chain_id m.components 1).map (fun t => t ++ ['/']))))
    '/'

/-- The loop of Motif.split_by_chain with its accumulated batch: a 0 component,
or reaching the final component, closes the batch; the 0 itself is dropped
while a non-zero final component is first appended. -/
def splitByChainGo (delim : Char) : List Component → List Component → List Motif
  | _, [] => []
  | acc, c :: rest =>
    if rest.isEmpty then
      (if c = .int 0 then [⟨acc, delim⟩] else [⟨acc ++ [c], delim⟩])
    else
      if c = .int 0 then ⟨acc, delim⟩ :: splitByChainGo delim [] rest
      else splitByChainGo delim (acc ++ [c]) rest

/-- Motif.split_by_chain. -/
def Motif.split_by_chain (m : Motif) : List Motif := splitByChainGo m.delim [] m.components

/-- The alphabet string used as the chain pool. -/
def alphabetChars : List Char :=
  ['A','B','C','D','E','F','G','H','I','J','K','L','M','N','O','P','Q','R','S','T','U','V','W','X','Y','Z']

/-- Python list.pop(): the last element and the remaining list; none models the
IndexError on an empty list. -/
def pyPop (l : List Char) : Option (Char × List Char) :=
  match l.getLast? with
  | none => none
  | some c => some (c, l.dropLast)

/-- The loop of get_motif_wrt_designed_structure_multi_chain: pop a chain
letter for every batch and transform the batch with it. -/
def multiChainGo : List Motif → List Char → Except Err (List Motif)
  | [], _ => .ok []
  | b :: bs, chains =>
    match pyPop chains with
    | none => .error .indexError
    | some (c, chains') =>
      match b.get_motif_wrt_designed_structure c with
      | .error e => .error e
      | .ok m' =>
        match multiChainGo bs chains' with
        | .error e => .error e
        | .ok ms => .ok (m' :: ms)

/-- Motif.get_motif_wrt_designed_structure_multi_chain: the chain pool is the
reversed alphabet, popped from the end. -/
def Motif.get_motif_wrt_designed_structure_multi_chain (m : Motif) : Except Err (List Motif) :=
  multiChainGo m.split_by_chain alphabetChars.reverse

/-- Spec-side companion of the designed-structure transform (C1): walk the
components with a 1-based cursor; ints are kept and advance the cursor by their
value, selectors are renumbered onto chain c at the cursor. -/
def designedComponents (c : Char) : List Component → Int → List Component
  | [], _ => []
  | .int n :: rest, pos => .int n :: designedComponents c rest (pos + n)
  | .sel s :: rest, pos =>
    .sel ⟨c, pos, pos + s.len - 1⟩ :: designedComponents c rest (pos + s.len)

/-- Conditions under which the rebuilt motif string of the designed-structure
transform re-parses: ints are non-negative or the -1 sentinel, every selector
has positive length and its placement [cursor, cursor + length - 1] lies within
1..99999 (five digits, as the selector pattern demands). -/
def designOk : List Component → Int → Bool
  | [], _ => true
  | .int n :: rest, pos => (decide (0 ≤ n) || decide (n = -1)) && designOk rest (pos + n)
  | .sel s :: rest, pos =>
    decide (1 ≤ pos) && decide (1 ≤ s.len) && decide (pos + s.len - 1 ≤ 99999) &&
      designOk rest (pos + s.len)

/-- Spec-side companion of split_by_chain (C4): a 0 component closes the
current batch and is dropped; the final component closes the last batch, being
included first when it is not 0. -/
def chainBatches : List Component → List (List Component)
  | [] => []
  | [c] => if c = .int 0 then [[]] else [[c]]
  | c :: rest =>
    if c = .int 0 then [] :: chainBatches rest
    else
      match chainBatches rest with
      | [] => [[c]]
      | b :: bs => (c :: b) :: bs

/-- Spec-side companion of the multi-chain transform (C3): the k-th batch is
transformed with chain letter A plus k. -/
def multiChainLetters : Nat → List Motif → Except Err (List Motif)
  | _, [] => .ok []
  | k, b :: bs =>
    match b.get_motif_wrt_designed_structure (Char.ofNat (65 + k)) with
    | .error e => .error e
    | .ok m' =>
      match multiChainLetters (k + 1) bs with
      | .error e => .error e
      | .ok ms => .ok (m' :: ms)

/-- Whether an Except value is an error. -/
def exceptIsError {α : Type} : Except Err α → Bool
  | .error _ => true
  | .ok _ => false

/-- A digit string in canonical form: it prints back to itself (equivalently,
it is nonempty, all digits, and has no leading zero unless it is 0 itself). -/
def isCanonDigits (l : List Char) : Bool := decide (natToStr (strToNat l) = l)

/-- A canonical selector token: chain letter, then two canonical digit runs of
at most five digits around a hyphen, with the first bound at most the second. -/
def canonSelToken (t : List Char) : Bool :=
  match t with
  | [] => false
  | u :: rest =>
    isUpperChar u &&
    (match pySplit '-' rest with
     | [d1, d2] =>
       isCanonDigits d1 && decide (d1.length ≤ 5) &&
       isCanonDigits d2 && decide (d2.length ≤ 5) &&
       decide (strToNat d1 ≤ strToNat d2)
     | _ => false)

/-- Canonical syntactically valid token (C2 amended): an integer token without
leading zeros, the literal -1 sentinel, or a canonical selector token. -/
def canonToken (t : List Char) : Bool :=
  isCanonDigits t || decide (t = ['-', '1']) || canonSelToken t

/-- Spec-side predicate (C7): the component is a Selector. -/
def isSelectorComponent : Component → Bool
  | .sel _ => true
  | .int _ => false

/-- Spec-side predicate (C7): the component is an integer other than -1. -/
def isSegmentComponent : Component → Bool
  | .int n => decide (n ≠ -1)
  | .sel _ => false

/-- Modelled from the spec: the external opaque Structure capability of
structure.py (absent from the sources); the alignment logic only consumes its
atom array (one coordinate per atom, in selection order), so the model keeps
exactly that list, with coordinates of an abstract type. -/
structure Structure (γ : Type) : Type where
  atom_array : List γ

/-- StructureAlignment (alignment.py): a structure, a motif and the cached
motif sub-structure computed on construction. -/
structure StructureAlignment (γ : Type) : Type where
  «structure» : Structure γ
  motif : Motif
  _motif_structure : Structure γ

/-- __post_init__ of StructureAlignment: cache the motif-restricted
sub-structure; the selection capability itself is external and passed in. -/
def StructureAlignment.make {γ : Type} (select_using_motif : Structure γ → Motif → Structure γ)
    (s : Structure γ) (m : Motif) : StructureAlignment γ :=
  ⟨s, m, select_using_motif s m⟩

/-- StructureAlignment.root_mean_square_deviation: assert equal point counts,
superimpose (external primitive), return the rmsd (external primitive) of the
reference coordinates against the superimposed coordinates. -/
def root_mean_square_deviation {γ τ ρ : Type}
    (superimpose : List γ → List γ → List γ × τ) (rmsd : List γ → List γ → ρ)
    (reference_coords mobile_coords : List γ) : Except Err ρ :=
  if reference_coords.length = mobile_coords.length then
    .ok (rmsd reference_coords (superimpose reference_coords mobile_coords).1)
  else .error .assertionError

/-- StructureAlignment.get_motif_deviation: assert equal atom counts of the two
cached motif sub-structures, then delegate to root_mean_square_deviation. -/
def StructureAlignment.get_motif_deviation {γ τ ρ : Type}
    (superimpose : List γ → List γ → List γ × τ) (rmsd : List γ → List γ → ρ)
    (self reference : StructureAlignment γ) : Except Err ρ :=
  if self._motif_structure.atom_array.length = reference._motif_structure.atom_array.length then
    root_mean_square_deviation superimpose rmsd
      reference._motif_structure.atom_array self._motif_structure.atom_array
  else .error .assertionError

/-! Basic facts about digits and the decimal printer. -/

theorem digitChar_toNat : ∀ d, d < 10 → (digitChar d).toNat = d + 48 := by decide

theorem isDigitChar_digitChar : ∀ d, d < 10 → isDigitChar (digitChar d) = true := by decide

theorem isDigitChar_iff {c : Char} : isDigitChar c = true ↔ 48 ≤ c.toNat ∧ c.toNat ≤ 57 := by
  simp [isDigitChar]

theorem isUpperChar_iff {c : Char} : isUpperChar c = true ↔ 65 ≤ c.toNat ∧ c.toNat ≤ 90 := by
  simp [isUpperChar]

theorem digit_ne_slash {c : Char} (h : isDigitChar c = true) : c ≠ '/' := by
  intro he
  subst he
  revert h
  decide

theorem digit_ne_hyphen {c : Char} (h : isDigitChar c = true) : c ≠ '-' := by
  intro he
  subst he
  revert h
  decide

theorem upper_not_digit {c : Char} (h : isUpperChar c = true) : isDigitChar c = false := by
  rw [isUpperChar_iff] at h
  rw [Bool.eq_false_iff]
  intro hd
  rw [isDigitChar_iff] at hd
  omega

theorem upper_ne_slash {c : Char} (h : isUpperChar c = true) : c ≠ '/' := by
  intro he
  subst he
  revert h
  decide

theorem upper_ne_hyphen {c : Char} (h : isUpperChar c = true) : c ≠ '-' := by
  intro he
  subst he
  revert h
  decide

theorem natToStrAux_zero : ∀ fuel, natToStrAux fuel 0 = [] := by
  intro fuel
  cases fuel <;> simp [natToStrAux]

theorem natToStrAux_fuel : ∀ f1 f2 n, n ≤ f1 → n ≤ f2 →
    natToStrAux f1 n = natToStrAux f2 n := by
  intro f1
  induction f1 with
  | zero =>
    intro f2 n h1 _
    interval_cases n
    rw [natToStrAux_zero, natToStrAux_zero]
  | succ a ih =>
    intro f2 n h1 h2
    by_cases hn : n = 0
    · subst hn
      rw [natToStrAux_zero, natToStrAux_zero]
    · obtain ⟨b, rfl⟩ : ∃ b, f2 = b + 1 := ⟨f2 - 1, by omega⟩
      simp only [natToStrAux, if_neg hn]
      have hd : n / 10 < n := Nat.div_lt_self (by omega) (by omega)
      rw [ih b (n / 10) (by omega) (by omega)]

theorem natToStr_small {n : Nat} (h0 : n ≠ 0) (h : n < 10) : natToStr n = [digitChar n] := by
  unfold natToStr
  rw [if_neg h0]
  obtain ⟨m, rfl⟩ : ∃ m, n = m + 1 := ⟨n - 1, by omega⟩
  simp only [natToStrAux, if_neg h0]
  rw [Nat.div_eq_of_lt h, natToStrAux_zero, Nat.mod_eq_of_lt h]
  simp

theorem natToStr_large {n : Nat} (h : 10 ≤ n) :
    natToStr n = natToStr (n / 10) ++ [digitChar (n % 10)] := by
  have h0 : n ≠ 0 := by omega
  have hq : n / 10 ≠ 0 := by omega
  conv_lhs => rw [natToStr]
  rw [if_neg h0]
  obtain ⟨m, rfl⟩ : ∃ m, n = m + 1 := ⟨n - 1, by omega⟩
  simp only [natToStrAux, if_neg h0]
  rw [natToStr, if_neg hq, natToStrAux_fuel m ((m + 1) / 10) ((m + 1) / 10) (by omega) le_rfl]

theorem natToStr_ne_nil : ∀ n, natToStr n ≠ [] := by
  intro n
  rcases Nat.lt_or_ge n 10 with h | h
  · by_cases h0 : n = 0
    · subst h0
      simp [natToStr]
    · rw [natToStr_small h0 h]
      simp
  · rw [natToStr_large h]
    simp

theorem natToStr_all_digits : ∀ n, (natToStr n).all isDigitChar = true := by
  intro n
  induction n using Nat.strong_induction_on with
  | _ n ih =>
    rcases Nat.lt_or_ge n 10 with h | h
    · by_cases h0 : n = 0
      · subst h0
        decide
      · rw [natToStr_small h0 h]
        simp [isDigitChar_digitChar n h]
    · rw [natToStr_large h]
      rw [List.all_append]
      have hd : n / 10 < n := Nat.div_lt_self (by omega) (by omega)
      rw [ih (n / 10) hd]
      simp [isDigitChar_digitChar (n % 10) (Nat.mod_lt n (by omega))]

theorem strToNat_append_singleton (l : List Char) (c : Char) :
    strToNat (l ++ [c]) = strToNat l * 10 + (c.toNat - 48) := by
  simp [strToNat, List.foldl_append]

theorem strToNat_natToStr : ∀ n, strToNat (natToStr n) = n := by
  intro n
  induction n using Nat.strong_induction_on with
  | _ n ih =>
    rcases Nat.lt_or_ge n 10 with h | h
    · by_cases h0 : n = 0
      · subst h0
        decide
      · rw [natToStr_small h0 h]
        simp [strToNat, digitChar_toNat n h]
    · rw [natToStr_large h, strToNat_append_singleton]
      have hd : n / 10 < n := Nat.div_lt_self (by omega) (by omega)
      rw [ih (n / 10) hd, digitChar_toNat (n % 10) (Nat.mod_lt n (by omega))]
      omega

theorem natToStr_length_le : ∀ k n, 1 ≤ k → n < 10 ^ k → (natToStr n).length ≤ k := by
  intro k
  induction k with
  | zero => omega
  | succ a ih =>
    intro n _ hlt
    rcases Nat.lt_or_ge n 10 with h | h
    · by_cases h0 : n = 0
      · subst h0
        simp [natToStr]
      · rw [natToStr_small h0 h]
        simp
    · rw [natToStr_large h]
      have ha : 1 ≤ a := by
        by_contra hc
        have : a = 0 := by omega
        subst this
        simp at hlt
        omega
      have hq : n / 10 < 10 ^ a := by
        rw [Nat.div_lt_iff_lt_mul (by omega)]
        calc n < 10 ^ (a + 1) := hlt
        _ = 10 ^ a * 10 := by ring
      have := ih (n / 10) ha hq
      simp only [List.length_append, List.length_cons, List.length_nil]
      omega

theorem natToStr_length_le5 {n : Nat} (h : n ≤ 99999) : (natToStr n).length ≤ 5 := by
  exact natToStr_length_le 5 n (by omega) (by norm_num; omega)

/-! Facts about pySplit and joinWith. -/

theorem pySplit_ne_nil (c : Char) : ∀ s, pySplit c s ≠ [] := by
  intro s
  induction s with
  | nil => simp [pySplit]
  | cons x xs ih =>
    rw [pySplit]
    by_cases hx : x = c
    · rw [if_pos hx]
      simp
    · rw [if_neg hx]
      rcases he : pySplit c xs with _ | ⟨t, ts⟩
      · exact absurd he ih
      · simp

theorem joinWith_single (c : Char) (t : List Char) : joinWith c [t] = t := rfl

theorem joinWith_cons_cons (c : Char) (t u : List Char) (us : List (List Char)) :
    joinWith c (t :: u :: us) = t ++ c :: joinWith c (u :: us) := rfl

theorem pySplit_sep_cons (c : Char) (xs : List Char) :
    pySplit c (c :: xs) = [] :: pySplit c xs := by
  rw [pySplit]
  simp

theorem pySplit_other_cons {x c : Char} (hx : x ≠ c) (xs : List Char) {t : List Char}
    {ts : List (List Char)} (he : pySplit c xs = t :: ts) :
    pySplit c (x :: xs) = (x :: t) :: ts := by
  rw [pySplit, if_neg hx, he]

theorem joinWith_pySplit (c : Char) : ∀ s, joinWith c (pySplit c s) = s := by
  intro s
  induction s with
  | nil => rfl
  | cons x xs ih =>
    by_cases hx : x = c
    · subst hx
      rw [pySplit_sep_cons]
      rcases he : pySplit x xs with _ | ⟨t, ts⟩
      · exact absurd he (pySplit_ne_nil x xs)
      · rw [he] at ih
        rw [joinWith_cons_cons]
        simp [ih]
    · rcases he : pySplit c xs with _ | ⟨t, ts⟩
      · exact absurd he (pySplit_ne_nil c xs)
      · rw [pySplit_other_cons hx xs he]
        rw [he] at ih
        rcases ts with _ | ⟨t2, ts2⟩
        · rw [joinWith_single] at ih
          show x :: t = x :: xs
          rw [ih]
        · rw [joinWith_cons_cons]
          rw [joinWith_cons_cons] at ih
          rw [List.cons_append, ih]

theorem pySplit_of_not_mem (c : Char) : ∀ t, c ∉ t → pySplit c t = [t] := by
  intro t
  induction t with
  | nil => simp [pySplit]
  | cons x xs ih =>
    intro hmem
    have hx : x ≠ c := by
      intro he
      exact hmem (by simp [he])
    exact pySplit_other_cons hx xs (ih (fun hc => hmem (List.mem_cons_of_mem x hc)))

theorem pySplit_append_cons (c : Char) :
    ∀ t r, c ∉ t → pySplit c (t ++ c :: r) = t :: pySplit c r := by
  intro t
  induction t with
  | nil =>
    intro r _
    simp only [List.nil_append]
    exact pySplit_sep_cons c r
  | cons x xs ih =>
    intro r hmem
    have hx : x ≠ c := by
      intro he
      exact hmem (by simp [he])
    rw [List.cons_append]
    exact pySplit_other_cons hx _ (ih r (fun hc => hmem (List.mem_cons_of_mem x hc)))

theorem joinWith_eq_append (c : Char) :
    ∀ t ts, ts ≠ [] → joinWith c (t :: ts) = t ++ c :: joinWith c ts := by
  intro t ts hne
  rcases ts with _ | ⟨t2, ts2⟩
  · exact absurd rfl hne
  · exact joinWith_cons_cons c t t2 ts2

theorem pySplit_joinWith (c : Char) :
    ∀ ts, ts ≠ [] → (∀ t ∈ ts, c ∉ t) → pySplit c (joinWith c ts) = ts := by
  intro ts
  induction ts with
  | nil => intro h; exact absurd rfl h
  | cons t ts2 ih =>
    intro _ hmem
    rcases ts2 with _ | ⟨u, us⟩
    · rw [joinWith]
      exact pySplit_of_not_mem c t (hmem t (by simp))
    · rw [joinWith_eq_append c t (u :: us) (by simp)]
      rw [pySplit_append_cons c t (joinWith c (u :: us)) (hmem t (by simp))]
      rw [ih (by simp) (fun x hx => hmem x (List.mem_cons_of_mem t hx))]

/-- The m_str of the designed-structure transform: appending a slash after each
token and dropping the final character is joining with slashes, for a nonempty
token list. -/
theorem dropLast_flatten_append (c : Char) :
    ∀ ts : List (List Char), ts ≠ [] →
      List.dropLast (List.flatten (ts.map (fun t => t ++ [c]))) = joinWith c ts := by
  intro ts
  induction ts with
  | nil => intro h; exact absurd rfl h
  | cons t ts2 ih =>
    intro _
    rcases ts2 with _ | ⟨u, us⟩
    · simp [joinWith]
    · rw [joinWith_eq_append c t (u :: us) (by simp)]
      simp only [List.map_cons, List.flatten_cons]
      have hne : List.flatten ((u :: us).map (fun t => t ++ [c])) ≠ [] := by
        simp only [List.map_cons, List.flatten_cons]
        rcases u with _ | _ <;> simp
      simp only [List.map_cons, List.flatten_cons] at hne
      rw [show t ++ [c] ++ (u ++ [c] ++ (List.map (fun t => t ++ [c]) us).flatten) =
          t ++ (c :: (u ++ [c] ++ (List.map (fun t => t ++ [c]) us).flatten)) by simp]
      rw [List.dropLast_append_of_ne_nil t (by simp)]
      rw [List.dropLast_cons_of_ne_nil hne]
      have := ih (by simp)
      simp only [List.map_cons, List.flatten_cons] at this
      rw [this]

/-! Classification of the tokens produced by printing components. -/

theorem not_mem_natToStr_of_not_digit {c : Char} (h : isDigitChar c = false) (n : Nat) :
    c ∉ natToStr n := by
  intro hmem
  have hall := natToStr_all_digits n
  rw [List.all_eq_true] at hall
  have hc := hall c hmem
  rw [h] at hc
  exact Bool.false_ne_true hc

theorem hyphen_not_mem_natToStr (n : Nat) : '-' ∉ natToStr n :=
  not_mem_natToStr_of_not_digit (by decide) n

theorem slash_not_mem_natToStr (n : Nat) : '/' ∉ natToStr n :=
  not_mem_natToStr_of_not_digit (by decide) n

theorem pyIsNumeric_natToStr (n : Nat) : pyIsNumeric (natToStr n) = true := by
  rw [pyIsNumeric]
  rcases he : natToStr n with _ | ⟨x, xs⟩
  · exact absurd he (natToStr_ne_nil n)
  · rw [← he, natToStr_all_digits n]
    simp [he]

theorem digitRun1to5_natToStr {n : Nat} (h : n ≤ 99999) :
    digitRun1to5 (natToStr n) = true := by
  rw [digitRun1to5, natToStr_all_digits n]
  have h1 : 1 ≤ (natToStr n).length :=
    Nat.one_le_iff_ne_zero.mpr (fun hz => natToStr_ne_nil n (List.length_eq_zero.mp hz))
  have h5 := natToStr_length_le5 h
  simp [h1, h5]

theorem classifyToken_nat (v : Nat) : classifyToken (natToStr v) = .ok (.int (v : Int)) := by
  rw [classifyToken, if_pos (pyIsNumeric_natToStr v), strToNat_natToStr]

theorem classifyToken_int_nonneg {n : Int} (h : 0 ≤ n) :
    classifyToken (intToStr n) = .ok (.int n) := by
  rw [intToStr, if_neg (by omega)]
  rw [classifyToken_nat n.toNat, Int.toNat_of_nonneg h]

theorem intToStr_neg_one : intToStr (-1) = ['-', '1'] := by decide

theorem classifyToken_neg_one : classifyToken (intToStr (-1)) = .ok (.int (-1)) := by decide

theorem selectorPatternMatch_token {c : Char} (hc : isUpperChar c = true) (a b : Nat)
    (ha : a ≤ 99999) (hb : b ≤ 99999) :
    selectorPatternMatch (c :: (natToStr a ++ '-' :: natToStr b)) = true := by
  rw [selectorPatternMatch, hc, Bool.true_and, List.any_eq_true]
  refine ⟨(natToStr a).length, ?_, ?_⟩
  · rw [List.mem_range]
    simp only [List.length_append, List.length_cons]
    omega
  · rw [List.take_left, List.drop_left]
    rw [digitRun1to5_natToStr ha]
    simp [digitRun1to5_natToStr hb]

theorem pySplit_selector_rest (a b : Nat) :
    pySplit '-' (natToStr a ++ '-' :: natToStr b) = [natToStr a, natToStr b] := by
  rw [pySplit_append_cons '-' (natToStr a) (natToStr b) (hyphen_not_mem_natToStr a)]
  rw [pySplit_of_not_mem '-' (natToStr b) (hyphen_not_mem_natToStr b)]

theorem selector_from_string_token {c : Char} (hc : isUpperChar c = true) (a b : Nat)
    (ha : a ≤ 99999) (hb : b ≤ 99999) (hab : a ≤ b) :
    Selector.from_string (c :: (natToStr a ++ '-' :: natToStr b)) =
      .ok ⟨c, (a : Int), (b : Int)⟩ := by
  rw [Selector.from_string, Selector.patternCheck,
    if_pos (selectorPatternMatch_token hc a b ha hb)]
  simp only [pySplit_selector_rest a b, Selector.rangeCheck, strToNat_natToStr,
    if_pos hab]

theorem pyIsNumeric_upper_head {c : Char} (hc : isUpperChar c = true) (rest : List Char) :
    pyIsNumeric (c :: rest) = false := by
  rw [pyIsNumeric, List.all_cons, upper_not_digit hc]
  simp

theorem classifyToken_selToken {c : Char} (hc : isUpperChar c = true) (a b : Nat)
    (ha : a ≤ 99999) (hb : b ≤ 99999) (hab : a ≤ b) :
    classifyToken (c :: (natToStr a ++ '-' :: natToStr b)) =
      .ok (.sel ⟨c, (a : Int), (b : Int)⟩) := by
  rw [classifyToken, if_neg (by rw [pyIsNumeric_upper_head hc]; simp)]
  rw [if_neg (by
    intro he
    have : c = '-' := by
      have := congrArg (fun l => l.headI) he
      simpa using this
    exact upper_ne_hyphen hc this)]
  rw [selector_from_string_token hc a b ha hb hab]

/-! The designed-structure transform rebuilds a motif string and re-parses it;
under designOk, this walk produces exactly the renumbered components. -/

theorem slash_not_mem_intToStr_nonneg {n : Int} (h : 0 ≤ n) : '/' ∉ intToStr n := by
  rw [intToStr, if_neg (by omega)]
  exact slash_not_mem_natToStr n.toNat

theorem designTokens_ne_nil (c : Char) (comps : List Component) (pos : Int)
    (h : comps ≠ []) : designTokens c comps pos ≠ [] := by
  rcases comps with _ | ⟨comp, rest⟩
  · exact absurd rfl h
  · rcases comp with s | n <;> simp [designTokens]

theorem designTokens_spec {c : Char} (hc : isUpperChar c = true) :
    ∀ (comps : List Component) (pos : Int), designOk comps pos = true →
      classifyAll (designTokens c comps pos) = .ok (designedComponents c comps pos) ∧
        ∀ t ∈ designTokens c comps pos, '/' ∉ t := by
  intro comps
  induction comps with
  | nil =>
    intro pos _
    exact ⟨rfl, by simp [designTokens]⟩
  | cons comp rest ih =>
    intro pos hok
    rcases comp with s | n
    · rw [designOk] at hok
      simp only [Bool.and_eq_true, decide_eq_true_eq] at hok
      obtain ⟨⟨⟨hpos, hlen⟩, hhi⟩, hrest⟩ := hok
      obtain ⟨ihAll, ihMem⟩ := ih (pos + s.len) hrest
      have hpos0 : (0 : Int) ≤ pos := by omega
      have hhi0 : (0 : Int) ≤ pos + s.len - 1 := by omega
      have hIa : intToStr pos = natToStr pos.toNat := by
        rw [intToStr, if_neg (by omega)]
      have hIb : intToStr (pos + s.len - 1) = natToStr (pos + s.len - 1).toNat := by
        rw [intToStr, if_neg (by omega)]
      have haN : pos.toNat ≤ 99999 := by omega
      have hbN : (pos + s.len - 1).toNat ≤ 99999 := by omega
      have habN : pos.toNat ≤ (pos + s.len - 1).toNat := by omega
      constructor
      · rw [designTokens, classifyAll, hIa, hIb]
        rw [classifyToken_selToken hc pos.toNat (pos + s.len - 1).toNat haN hbN habN]
        rw [ihAll]
        rw [designedComponents]
        have e1 : ((pos.toNat : Int)) = pos := Int.toNat_of_nonneg hpos0
        have e2 : (((pos + s.len - 1).toNat : Int)) = pos + s.len - 1 :=
          Int.toNat_of_nonneg hhi0
        rw [e1, e2]
      · intro t ht
        rw [designTokens] at ht
        rcases List.mem_cons.mp ht with he | hmem
        · subst he
          intro hin
          rcases List.mem_cons.mp hin with he2 | hmem2
          · exact upper_ne_slash hc he2.symm
          · rcases List.mem_append.mp hmem2 with h3 | h4
            · rw [hIa] at h3
              exact slash_not_mem_natToStr pos.toNat h3
            · rcases List.mem_cons.mp h4 with h5 | h6
              · exact absurd h5.symm (by decide)
              · rw [hIb] at h6
                exact slash_not_mem_natToStr (pos + s.len - 1).toNat h6
        · exact ihMem t hmem
    · rw [designOk] at hok
      simp only [Bool.and_eq_true, Bool.or_eq_true, decide_eq_true_eq] at hok
      obtain ⟨hn, hrest⟩ := hok
      obtain ⟨ihAll, ihMem⟩ := ih (pos + n) hrest
      have hclass : classifyToken (intToStr n) = .ok (.int n) := by
        rcases hn with h0 | hm1
        · exact classifyToken_int_nonneg h0
        · subst hm1
          exact classifyToken_neg_one
      constructor
      · rw [designTokens, classifyAll, hclass, ihAll, designedComponents]
      · intro t ht
        rw [designTokens] at ht
        rcases List.mem_cons.mp ht with he | hmem
        · subst he
          rcases hn with h0 | hm1
          · exact slash_not_mem_intToStr_nonneg h0
          · subst hm1
            rw [intToStr_neg_one]
            decide
        · exact ihMem t hmem

/-- The shared correspondence: under designOk the designed-structure transform
returns the renumbered components with delimiter slash. -/
theorem gmwds_eq_designed (m : Motif) (c : Char) (hc : isUpperChar c = true)
    (hne : m.components ≠ []) (hok : designOk m.components 1 = true) :
    m.get_motif_wrt_designed_structure c = .ok ⟨designedComponents c m.components 1, '/'⟩ := by
  have hTokNe := designTokens_ne_nil c m.components 1 hne
  obtain ⟨hAll, hMem⟩ := designTokens_spec hc m.components 1 hok
  rw [Motif.get_motif_wrt_designed_structure]
  rw [dropLast_flatten_append '/' _ hTokNe]
  rw [Motif.from_string]
  rw [pySplit_joinWith '/' _ hTokNe hMem]
  rw [hAll]

/-! Canonical tokens round-trip through classification and printing. -/

theorem natToStr_length_lower : ∀ k n, 10 ^ k ≤ n → k + 1 ≤ (natToStr n).length := by
  intro k
  induction k with
  | zero =>
    intro n _
    have := natToStr_ne_nil n
    rcases he : natToStr n with _ | ⟨x, xs⟩
    · exact absurd he this
    · simp
  | succ a ih =>
    intro n h
    have h10 : 10 ≤ n := by
      calc 10 = 10 ^ 1 := by ring
      _ ≤ 10 ^ (a + 1) := Nat.pow_le_pow_right (by omega) (by omega)
      _ ≤ n := h
    rw [natToStr_large h10]
    have hq : 10 ^ a ≤ n / 10 := by
      rw [Nat.le_div_iff_mul_le (by omega)]
      calc 10 ^ a * 10 = 10 ^ (a + 1) := by ring
      _ ≤ n := h
    have := ih (n / 10) hq
    simp only [List.length_append, List.length_cons, List.length_nil]
    omega

theorem le_99999_of_natToStr_length {n : Nat} (h : (natToStr n).length ≤ 5) : n ≤ 99999 := by
  by_contra hc
  have : 10 ^ 5 ≤ n := by omega
  have := natToStr_length_lower 5 n this
  omega

theorem intToStr_natCast (v : Nat) : intToStr (v : Int) = natToStr v := by
  rw [intToStr, if_neg (by omega)]
  simp

theorem isCanonDigits_eq {t : List Char} (h : isCanonDigits t = true) :
    natToStr (strToNat t) = t := of_decide_eq_true h

theorem classifyToken_canon {t : List Char} (h : canonToken t = true) :
    ∃ comp, classifyToken t = .ok comp ∧ componentStr comp = t := by
  rw [canonToken] at h
  simp only [Bool.or_eq_true, decide_eq_true_eq] at h
  rcases h with (hd | hm1) | hsel
  · have ht := isCanonDigits_eq hd
    refine ⟨.int (strToNat t : Int), ?_, ?_⟩
    · conv_lhs => rw [← ht]
      rw [classifyToken_nat]
    · rw [componentStr, intToStr_natCast, ht]
  · subst hm1
    exact ⟨.int (-1), by decide, by decide⟩
  · rcases t with _ | ⟨u, rest⟩
    · rw [canonSelToken] at hsel
      exact absurd hsel (by simp)
    · rw [canonSelToken] at hsel
      rcases hsp : pySplit '-' rest with _ | ⟨d1, ds⟩
      · exact absurd hsp (pySplit_ne_nil '-' rest)
      · rcases ds with _ | ⟨d2, ds2⟩
        · rw [hsp] at hsel
          simp at hsel
        · rcases ds2 with _ | _
          · rw [hsp] at hsel
            simp only [Bool.and_eq_true, decide_eq_true_eq] at hsel
            obtain ⟨hu, ⟨⟨⟨⟨hc1, hl1⟩, hc2⟩, hl2⟩, hle⟩⟩ := hsel
            have he1 := isCanonDigits_eq hc1
            have he2 := isCanonDigits_eq hc2
            have hrest : rest = d1 ++ '-' :: d2 := by
              have := joinWith_pySplit '-' rest
              rw [hsp] at this
              rw [← this, joinWith_cons_cons, joinWith_single]
            have hb1 : strToNat d1 ≤ 99999 :=
              le_99999_of_natToStr_length (by rw [he1]; exact hl1)
            have hb2 : strToNat d2 ≤ 99999 :=
              le_99999_of_natToStr_length (by rw [he2]; exact hl2)
            refine ⟨.sel ⟨u, (strToNat d1 : Int), (strToNat d2 : Int)⟩, ?_, ?_⟩
            · rw [hrest, ← he1, ← he2]
              rw [classifyToken_selToken hu (strToNat d1) (strToNat d2) hb1 hb2 hle]
              rw [he1, he2]
            · rw [componentStr, Selector.pyStr]
              simp only
              rw [intToStr_natCast, intToStr_natCast, he1, he2, hrest]
          · rw [hsp] at hsel
            simp at hsel

theorem classifyAll_canon : ∀ ts : List (List Char), (∀ t ∈ ts, canonToken t = true) →
    ∃ comps, classifyAll ts = .ok comps ∧ comps.map componentStr = ts := by
  intro ts
  induction ts with
  | nil =>
    intro _
    exact ⟨[], rfl, rfl⟩
  | cons t ts2 ih =>
    intro hmem
    obtain ⟨comp, hcl, hstr⟩ := classifyToken_canon (hmem t (by simp))
    obtain ⟨comps, hall, hmap⟩ := ih (fun x hx => hmem x (List.mem_cons_of_mem t hx))
    refine ⟨comp :: comps, ?_, ?_⟩
    · rw [classifyAll, hcl, hall]
    · rw [List.map_cons, hstr, hmap]

/-- The shared round-trip lemma: when every token of the split is canonical,
parsing and printing reproduce the input string. -/
theorem from_string_pyStr (d : Char) (s : List Char)
    (h : ∀ t ∈ pySplit d s, canonToken t = true) :
    (Motif.from_string s d).map Motif.pyStr = .ok s := by
  obtain ⟨comps, hall, hmap⟩ := classifyAll_canon (pySplit d s) h
  rw [Motif.from_string, hall]
  rw [Except.map]
  rw [Motif.pyStr]
  simp only
  rw [hmap, joinWith_pySplit]

/-! The chain split: splitByChainGo against the spec-side chainBatches. -/

theorem chainBatches_single (c : Component) :
    chainBatches [c] = if c = .int 0 then [[]] else [[c]] := rfl

theorem chainBatches_cons_cons (c r : Component) (rs : List Component) :
    chainBatches (c :: r :: rs) =
      if c = .int 0 then [] :: chainBatches (r :: rs)
      else
        match chainBatches (r :: rs) with
        | [] => [[c]]
        | b :: bs => (c :: b) :: bs := rfl

theorem chainBatches_ne_nil : ∀ l : List Component, l ≠ [] → chainBatches l ≠ [] := by
  intro l
  rcases l with _ | ⟨c, rest⟩
  · intro h
    exact absurd rfl h
  · intro _
    rcases rest with _ | ⟨r, rs⟩
    · rw [chainBatches_single]
      by_cases hc : c = .int 0
      · rw [if_pos hc]
        simp
      · rw [if_neg hc]
        simp
    · rw [chainBatches_cons_cons]
      by_cases hc : c = .int 0
      · rw [if_pos hc]
        simp
      · rw [if_neg hc]
        rcases chainBatches (r :: rs) with _ | ⟨b, bs⟩ <;> simp

theorem splitByChainGo_last (d : Char) (acc : List Component) (c : Component) :
    splitByChainGo d acc [c] =
      if c = .int 0 then [⟨acc, d⟩] else [⟨acc ++ [c], d⟩] := rfl

theorem splitByChainGo_cons (d : Char) (acc : List Component) (c r : Component)
    (rs : List Component) :
    splitByChainGo d acc (c :: r :: rs) =
      if c = .int 0 then ⟨acc, d⟩ :: splitByChainGo d [] (r :: rs)
      else splitByChainGo d (acc ++ [c]) (r :: rs) := rfl

theorem splitByChainGo_eq : ∀ (l : List Component) (d : Char) (acc : List Component),
    l ≠ [] → ∃ b bs, chainBatches l = b :: bs ∧
      splitByChainGo d acc l = Motif.mk (acc ++ b) d :: bs.map (fun x => Motif.mk x d) := by
  intro l
  induction l with
  | nil =>
    intro d acc h
    exact absurd rfl h
  | cons c rest ih =>
    intro d acc _
    rcases rest with _ | ⟨r, rs⟩
    · rw [chainBatches_single]
      by_cases hc : c = .int 0
      · refine ⟨[], [], by rw [if_pos hc], ?_⟩
        rw [splitByChainGo_last, if_pos hc]
        simp
      · refine ⟨[c], [], by rw [if_neg hc], ?_⟩
        rw [splitByChainGo_last, if_neg hc]
        simp
    · by_cases hc : c = .int 0
      · obtain ⟨b', bs', hcb, hgo⟩ := ih d [] (by simp)
        refine ⟨[], b' :: bs', ?_, ?_⟩
        · rw [chainBatches_cons_cons, if_pos hc, hcb]
        · rw [splitByChainGo_cons, if_pos hc, hgo]
          simp
      · obtain ⟨b', bs', hcb, hgo⟩ := ih d (acc ++ [c]) (by simp)
        refine ⟨c :: b', bs', ?_, ?_⟩
        · rw [chainBatches_cons_cons, if_neg hc, hcb]
        · rw [splitByChainGo_cons, if_neg hc, hgo]
          simp

theorem chainBatches_flatten : ∀ l : List Component,
    (chainBatches l).flatten = l.filter (fun c => decide (c ≠ Component.int 0)) := by
  intro l
  induction l with
  | nil => rfl
  | cons c rest ih =>
    rcases rest with _ | ⟨r, rs⟩
    · rw [chainBatches_single]
      by_cases hc : c = .int 0
      · rw [if_pos hc]
        subst hc
        simp
      · rw [if_neg hc]
        simp [hc]
    · rw [chainBatches_cons_cons]
      by_cases hc : c = .int 0
      · rw [if_pos hc]
        subst hc
        simp only [List.flatten_cons, List.nil_append, ih]
        simp
      · rw [if_neg hc]
        rcases he : chainBatches (r :: rs) with _ | ⟨b, bs⟩
        · exact absurd he (chainBatches_ne_nil (r :: rs) (by simp))
        · rw [he] at ih
          simp only [List.flatten_cons] at ih ⊢
          rw [List.filter_cons_of_pos (by simp [hc])]
          rw [← ih]
          simp

/-! The multi-chain transform: the popped pool letters are A, B, C, ... -/

theorem pyPop_reverse_cons (r : Char) (rs : List Char) :
    pyPop ((r :: rs).reverse) = some (r, rs.reverse) := by
  rw [pyPop]
  rw [List.reverse_cons, List.getLast?_concat, List.dropLast_concat]

theorem pyPop_some_facts {l rest : List Char} {c : Char} (h : pyPop l = some (c, rest)) :
    rest = l.dropLast ∧ l ≠ [] := by
  rw [pyPop] at h
  rcases he : l.getLast? with _ | c'
  · rw [he] at h
    exact absurd h (by simp)
  · rw [he] at h
    refine ⟨by injection h with h1; injection h1 with _ h2; exact h2.symm, ?_⟩
    intro hl
    subst hl
    simp at he

theorem pyPop_of_ne_nil {l : List Char} (h : l ≠ []) :
    ∃ c, pyPop l = some (c, l.dropLast) := by
  rcases he : l.getLast? with _ | c'
  · exact absurd (List.getLast?_eq_none_iff.mp he) h
  · exact ⟨c', by rw [pyPop, he]⟩

theorem alphabet_drop_cons : ∀ k, k < 26 →
    alphabetChars.drop k = Char.ofNat (65 + k) :: alphabetChars.drop (k + 1) := by
  decide

theorem multiChainGo_letters : ∀ (bs : List Motif) (k : Nat), bs.length + k ≤ 26 →
    multiChainGo bs ((alphabetChars.drop k).reverse) = multiChainLetters k bs := by
  intro bs
  induction bs with
  | nil =>
    intro k _
    rfl
  | cons b bs2 ih =>
    intro k hk
    have hk26 : k < 26 := by
      simp only [List.length_cons] at hk
      omega
    have hred : multiChainGo (b :: bs2) ((alphabetChars.drop k).reverse) =
        (match b.get_motif_wrt_designed_structure (Char.ofNat (65 + k)) with
        | .error e => .error e
        | .ok m' =>
          match multiChainGo bs2 ((alphabetChars.drop (k + 1)).reverse) with
          | .error e => .error e
          | .ok ms => .ok (m' :: ms)) := by
      rw [alphabet_drop_cons k hk26, multiChainGo, pyPop_reverse_cons]
    rw [hred, multiChainLetters]
    rcases he : b.get_motif_wrt_designed_structure (Char.ofNat (65 + k)) with e | m'
    · rfl
    · rw [ih (k + 1) (by simp only [List.length_cons] at hk; omega)]

/-! No code path of the parser or the transform raises IndexError; only the
chain-pool pop can. -/

theorem patternCheck_error_eq {s : List Char} {e : Err}
    (h : Selector.patternCheck s = .error e) : e = .valueError := by
  rw [Selector.patternCheck] at h
  split at h
  · exact absurd h (by simp)
  · exact (Except.error.inj h).symm

theorem rangeCheck_error_eq {r : List (List Char)} {e : Err}
    (h : Selector.rangeCheck r = .error e) : e = .valueError := by
  rw [Selector.rangeCheck.eq_def] at h
  split at h
  all_goals
    first
    | exact (Except.error.inj h).symm
    | (split at h <;>
        first
        | exact (Except.error.inj h).symm
        | exact absurd h (by simp))

theorem selector_from_string_not_index (s : List Char) :
    Selector.from_string s ≠ .error .indexError := by
  intro h
  rw [Selector.from_string.eq_def] at h
  split at h
  · rename_i e heq
    have hv := patternCheck_error_eq heq
    subst hv
    exact absurd (Except.error.inj h) (by simp)
  · split at h
    · exact absurd (Except.error.inj h) (by simp)
    · split at h
      · rename_i e heq
        have hv := rangeCheck_error_eq heq
        subst hv
        exact absurd (Except.error.inj h) (by simp)
      · split at h
        all_goals exact absurd h (by simp)

theorem classifyToken_not_index (t : List Char) :
    classifyToken t ≠ .error .indexError := by
  intro h
  rw [classifyToken] at h
  by_cases h1 : pyIsNumeric t = true
  · rw [if_pos h1] at h
    simp at h
  · rw [if_neg h1] at h
    by_cases h2 : t = ['-', '1']
    · rw [if_pos h2] at h
      simp at h
    · rw [if_neg h2] at h
      rcases he : Selector.from_string t with e | sel
      · rw [he] at h
        injection h with h3
        subst h3
        exact selector_from_string_not_index t he
      · rw [he] at h
        simp at h

theorem classifyAll_not_index : ∀ ts : List (List Char),
    classifyAll ts ≠ .error .indexError := by
  intro ts
  induction ts with
  | nil => simp [classifyAll]
  | cons t ts2 ih =>
    intro h
    rw [classifyAll] at h
    rcases he : classifyToken t with e | comp
    · rw [he] at h
      injection h with h1
      subst h1
      exact classifyToken_not_index t he
    · rw [he] at h
      rcases he2 : classifyAll ts2 with e | comps
      · rw [he2] at h
        injection h with h1
        subst h1
        exact ih he2
      · rw [he2] at h
        simp at h

theorem from_string_not_index (s : List Char) (d : Char) :
    Motif.from_string s d ≠ .error .indexError := by
  intro h
  rw [Motif.from_string] at h
  rcases he : classifyAll (pySplit d s) with e | comps
  · rw [he] at h
    injection h with h1
    subst h1
    exact classifyAll_not_index (pySplit d s) he
  · rw [he] at h
    simp at h

theorem gmwds_not_index (m : Motif) (c : Char) :
    m.get_motif_wrt_designed_structure c ≠ .error .indexError := by
  rw [Motif.get_motif_wrt_designed_structure]
  exact from_string_not_index _ '/'

theorem multiChainGo_cons_none {b : Motif} {bs : List Motif} {chains : List Char}
    (hp : pyPop chains = none) :
    multiChainGo (b :: bs) chains = .error .indexError := by
  rw [multiChainGo, hp]

theorem multiChainGo_cons_some {b : Motif} {bs : List Motif} {chains : List Char}
    {c : Char} {rest : List Char} (hp : pyPop chains = some (c, rest)) :
    multiChainGo (b :: bs) chains =
      (match b.get_motif_wrt_designed_structure c with
      | .error e => .error e
      | .ok m' =>
        match multiChainGo bs rest with
        | .error e => .error e
        | .ok ms => .ok (m' :: ms)) := by
  rw [multiChainGo, hp]

theorem multiChainGo_isError_of_long : ∀ (bs : List Motif) (chains : List Char),
    chains.length < bs.length → exceptIsError (multiChainGo bs chains) = true := by
  intro bs
  induction bs with
  | nil =>
    intro chains h
    simp at h
  | cons b bs2 ih =>
    intro chains h
    rcases hp : pyPop chains with _ | ⟨c, rest⟩
    · rw [multiChainGo_cons_none hp]
      rfl
    · rw [multiChainGo_cons_some hp]
      obtain ⟨hrest, hne⟩ := pyPop_some_facts hp
      rcases he : b.get_motif_wrt_designed_structure c with e | m'
      · rfl
      · rcases hrec : multiChainGo bs2 rest with e | ms
        · rfl
        · exfalso
          have hlen : rest.length < bs2.length := by
            rw [hrest, List.length_dropLast]
            have h1 : 1 ≤ chains.length := by
              rcases chains with _ | _
              · exact absurd rfl hne
              · simp
            simp only [List.length_cons] at h
            omega
          have hthis := ih rest hlen
          rw [hrec] at hthis
          simp [exceptIsError] at hthis

theorem multiChainGo_ne_index_of_short : ∀ (bs : List Motif) (chains : List Char),
    bs.length ≤ chains.length → multiChainGo bs chains ≠ .error .indexError := by
  intro bs
  induction bs with
  | nil =>
    intro chains _
    simp [multiChainGo]
  | cons b bs2 ih =>
    intro chains h
    have hne : chains ≠ [] := by
      intro hc
      subst hc
      simp at h
    obtain ⟨c, hp⟩ := pyPop_of_ne_nil hne
    rw [multiChainGo_cons_some hp]
    rcases he : b.get_motif_wrt_designed_structure c with e | m'
    · show Except.error e ≠ Except.error Err.indexError
      intro hcon
      injection hcon with h1
      subst h1
      exact gmwds_not_index b c he
    · rcases hrec : multiChainGo bs2 chains.dropLast with e | ms
      · show Except.error e ≠ Except.error Err.indexError
        intro hcon
        injection hcon with h1
        subst h1
        refine ih chains.dropLast ?_ hrec
        rw [List.length_dropLast]
        simp only [List.length_cons] at h
        omega
      · show Except.ok (m' :: ms) ≠ Except.error Err.indexError
        simp

/-! Iteration over selectors and segments is filtering. -/

theorem filterMap_sel_eq (l : List Component) :
    (l.filterMap fun c => match c with | .sel s => some s | .int _ => none).map
        Component.sel =
      l.filter isSelectorComponent := by
  induction l with
  | nil => rfl
  | cons c rest ih =>
    rcases c with s | n
    · simp [isSelectorComponent, ih]
    · simp [isSelectorComponent, ih]

theorem filterMap_seg_eq (l : List Component) :
    (l.filterMap fun c => match c with
        | .int n => if n = -1 then none else some n
        | .sel _ => none).map Component.int =
      l.filter isSegmentComponent := by
  induction l with
  | nil => rfl
  | cons c rest ih =>
    rcases c with s | n
    · simp [isSegmentComponent, ih]
    · by_cases hn : n = -1
      · subst hn
        simp [isSegmentComponent, ih]
      · simp [isSegmentComponent, hn, ih]

/-- Shared form of the split: split_by_chain is chainBatches with the motif
delimiter attached. -/
theorem split_by_chain_eq_batches (m : Motif) :
    m.split_by_chain = (chainBatches m.components).map (fun b => Motif.mk b m.delim) := by
  by_cases hl : m.components = []
  · rw [Motif.split_by_chain, hl]
    rfl
  · obtain ⟨b, bs, hcb, hgo⟩ := splitByChainGo_eq m.components m.delim [] hl
    rw [Motif.split_by_chain, hgo, hcb]
    simp

/-! Claim theorems. -/

/-- C1 counterexample: the claim quantifies over every Motif with components
that are Selectors, non-negative integers or -1, but on the motif with spacer
100000 followed by a selector the transform places the selector at position
100001, which exceeds the five-digit selector pattern, so re-parsing the built
string raises ValueError instead of returning a Motif. -/
theorem c1_counterexample :
    (Motif.mk [Component.int 100000, Component.sel ⟨'A', 1, 1⟩]
        '/').get_motif_wrt_designed_structure 'A' = .error Err.valueError := by
  rfl

/-- C1 (amended): for every nonempty Motif whose components are Selectors of
positive length, non-negative integers or -1, and every uppercase chain letter,
provided every selector placement [cursor, cursor + length - 1] stays within
1..99999 (the designOk side condition forced by the counterexample), the
transform returns the Motif with the same number and order of components in
which every integer is emitted unchanged and advances the 1-based cursor by its
value, and every Selector is replaced by a Selector on the given chain spanning
[cursor, cursor + length - 1], advancing the cursor by its length. -/
theorem c1_designed_structure (m : Motif) (c : Char) (h1 : isUpperChar c = true)
    (h2 : m.components ≠ []) (h3 : designOk m.components 1 = true) :
    m.get_motif_wrt_designed_structure c =
      .ok ⟨designedComponents c m.components 1, '/'⟩ :=
  gmwds_eq_designed m c h1 h2 h3

/-- C1 witness: the transform maps 25/A814-824/25 to 25/A26-36/25. -/
theorem c1_witness :
    isUpperChar 'A' = true ∧
    ([Component.int 25, Component.sel ⟨'A', 814, 824⟩, Component.int 25] :
      List Component) ≠ [] ∧
    designOk [Component.int 25, Component.sel ⟨'A', 814, 824⟩, Component.int 25] 1 = true ∧
    (Motif.mk [Component.int 25, Component.sel ⟨'A', 814, 824⟩, Component.int 25]
        '/').get_motif_wrt_designed_structure 'A' =
      .ok (Motif.mk [Component.int 25, Component.sel ⟨'A', 26, 36⟩, Component.int 25] '/') :=
  ⟨by decide, by decide, by decide,
    (c1_designed_structure
        (Motif.mk [Component.int 25, Component.sel ⟨'A', 814, 824⟩, Component.int 25] '/')
        'A' (by decide) (by decide) (by decide)).trans (by rfl)⟩

/-- C2 counterexample: A01-2 is a selector token of the stated grammar (chain
letter, 2-digit start 01 not exceeding end 2), yet parsing and re-serializing
yields A1-2, not the input, because int() drops the leading zero. -/
theorem c2_counterexample :
    (Motif.from_string ['A', '0', '1', '-', '2'] '/').map Motif.pyStr =
        .ok ['A', '1', '-', '2'] ∧
      (['A', '1', '-', '2'] : List Char) ≠ ['A', '0', '1', '-', '2'] :=
  ⟨rfl, by decide⟩

/-- C2 (amended): for every delimiter character and every string each of whose
delimiter-separated tokens is a canonical grammar token (integer token without
leading zeros, the literal -1, or a selector token with canonical 1-5 digit
bounds, start not exceeding end), parsing followed by serialization with the
same delimiter reproduces the input string exactly. -/
theorem c2_round_trip (d : Char) (s : List Char)
    (h : ∀ t ∈ pySplit d s, canonToken t = true) :
    (Motif.from_string s d).map Motif.pyStr = .ok s :=
  from_string_pyStr d s h

/-- C2 witness: the round trip on 25/A814-824/25 with delimiter slash. -/
theorem c2_witness :
    (∀ t ∈ pySplit '/' ['2', '5', '/', 'A', '8', '1', '4', '-', '8', '2', '4', '/', '2', '5'],
      canonToken t = true) ∧
    (Motif.from_string ['2', '5', '/', 'A', '8', '1', '4', '-', '8', '2', '4', '/', '2', '5']
          '/').map Motif.pyStr =
      .ok ['2', '5', '/', 'A', '8', '1', '4', '-', '8', '2', '4', '/', '2', '5'] :=
  ⟨by decide, c2_round_trip '/' _ (by decide)⟩

/-- C3: for a Motif splitting into at most 26 chain-segments, fully consuming
the multi-chain transform equals applying the single-chain transform to the
k-th segment of split_by_chain with chain letter A plus k (A, B, C, ... in
order), the cursor restarting at 1 inside every segment because the
single-chain transform always starts its cursor at 1. -/
theorem c3_multi_chain (m : Motif) (h : m.split_by_chain.length ≤ 26) :
    m.get_motif_wrt_designed_structure_multi_chain =
      multiChainLetters 0 m.split_by_chain := by
  rw [Motif.get_motif_wrt_designed_structure_multi_chain]
  have halph : alphabetChars.reverse = (alphabetChars.drop 0).reverse := rfl
  rw [halph]
  exact multiChainGo_letters m.split_by_chain 0 (by omega)

/-- C3 witness: 10/A322-326/5/0/B531-539/5/B551-562 yields the two motifs
10/A11-15/5 and B1-9/5/B15-26, chains A then B. -/
theorem c3_witness :
    (Motif.mk [Component.int 10, Component.sel ⟨'A', 322, 326⟩, Component.int 5,
        Component.int 0, Component.sel ⟨'B', 531, 539⟩, Component.int 5,
        Component.sel ⟨'B', 551, 562⟩] '/').split_by_chain.length ≤ 26 ∧
    (Motif.mk [Component.int 10, Component.sel ⟨'A', 322, 326⟩, Component.int 5,
        Component.int 0, Component.sel ⟨'B', 531, 539⟩, Component.int 5,
        Component.sel ⟨'B', 551, 562⟩] '/').get_motif_wrt_designed_structure_multi_chain =
      multiChainLetters 0
        (Motif.mk [Component.int 10, Component.sel ⟨'A', 322, 326⟩, Component.int 5,
          Component.int 0, Component.sel ⟨'B', 531, 539⟩, Component.int 5,
          Component.sel ⟨'B', 551, 562⟩] '/').split_by_chain ∧
    (Motif.mk [Component.int 10, Component.sel ⟨'A', 322, 326⟩, Component.int 5,
        Component.int 0, Component.sel ⟨'B', 531, 539⟩, Component.int 5,
        Component.sel ⟨'B', 551, 562⟩] '/').get_motif_wrt_designed_structure_multi_chain =
      .ok [Motif.mk [Component.int 10, Component.sel ⟨'A', 11, 15⟩, Component.int 5] '/',
        Motif.mk [Component.sel ⟨'B', 1, 9⟩, Component.int 5,
          Component.sel ⟨'B', 15, 26⟩] '/'] :=
  ⟨by decide,
    c3_multi_chain
      (Motif.mk [Component.int 10, Component.sel ⟨'A', 322, 326⟩, Component.int 5,
        Component.int 0, Component.sel ⟨'B', 531, 539⟩, Component.int 5,
        Component.sel ⟨'B', 551, 562⟩] '/') (by decide),
    by rfl⟩

/-- C4: split_by_chain yields exactly the chainBatches of the component list,
each batch carrying the original delimiter: a 0 component closes the current
batch and is dropped, order is otherwise kept, a non-zero final component is
included in the last batch; consequently the concatenation of the yielded
component lists is the original component list with every 0 removed. -/
theorem c4_split_by_chain (m : Motif) :
    m.split_by_chain = (chainBatches m.components).map (fun b => Motif.mk b m.delim) ∧
    (m.split_by_chain.map Motif.components).flatten =
      m.components.filter (fun c => decide (c ≠ Component.int 0)) := by
  refine ⟨split_by_chain_eq_batches m, ?_⟩
  rw [split_by_chain_eq_batches m]
  rw [List.map_map]
  have hcomp : (Motif.components ∘ fun b => Motif.mk b m.delim) = id := rfl
  rw [hcomp, List.map_id]
  exact chainBatches_flatten m.components

/-- C5 counterexample: -1 is renumbered over like any spacer: the motif
"A1-2, -1, B1-2" maps to "A1-2, -1, A2-3", whereas without the -1 the same
selectors map to "A1-2, A3-4"; the selector after the -1 lands one position
earlier, so the cursor is not the same before and after the -1 component. -/
theorem c5_counterexample :
    (Motif.mk [Component.sel ⟨'A', 1, 2⟩, Component.int (-1), Component.sel ⟨'B', 1, 2⟩]
        '/').get_motif_wrt_designed_structure 'A' =
      .ok (Motif.mk [Component.sel ⟨'A', 1, 2⟩, Component.int (-1),
        Component.sel ⟨'A', 2, 3⟩] '/') ∧
    (Motif.mk [Component.sel ⟨'A', 1, 2⟩, Component.sel ⟨'B', 1, 2⟩]
        '/').get_motif_wrt_designed_structure 'A' =
      .ok (Motif.mk [Component.sel ⟨'A', 1, 2⟩, Component.sel ⟨'A', 3, 4⟩] '/') ∧
    (Motif.mk [Component.sel ⟨'A', 1, 2⟩, Component.int (-1), Component.sel ⟨'A', 2, 3⟩]
        '/').selector_iter ≠
      (Motif.mk [Component.sel ⟨'A', 1, 2⟩, Component.sel ⟨'A', 3, 4⟩] '/').selector_iter :=
  ⟨by rfl, by rfl, by decide⟩

/-- C5 (amended): the -1 sentinel is treated by get_motif_wrt_designed_structure
exactly like any integer spacer: it is emitted unchanged and the running cursor
advances by -1 (decreases by one), so a selector following a -1 receives a
numbering one position lower than it would if the -1 were absent. -/
theorem c5_amended (s t : Selector) (h1 : 1 ≤ s.len) (h2 : 1 ≤ t.len)
    (h3 : s.len + t.len - 1 ≤ 99999) :
    (Motif.mk [Component.sel s, Component.int (-1), Component.sel t]
        '/').get_motif_wrt_designed_structure 'A' =
      .ok (Motif.mk [Component.sel ⟨'A', 1, s.len⟩, Component.int (-1),
        Component.sel ⟨'A', s.len, s.len + t.len - 1⟩] '/') := by
  have hok : designOk [Component.sel s, Component.int (-1), Component.sel t] 1 = true := by
    rw [designOk, designOk, designOk, designOk]
    simp only [Bool.and_eq_true, Bool.or_eq_true, decide_eq_true_eq]
    exact ⟨⟨⟨by omega, h1⟩, by omega⟩, Or.inr trivial,
      ⟨⟨by omega, h2⟩, by omega⟩, trivial⟩
  have hmain := gmwds_eq_designed
    (Motif.mk [Component.sel s, Component.int (-1), Component.sel t] '/') 'A'
    (by decide) (by simp) hok
  rw [hmain]
  have harith1 : (1 : Int) + s.len - 1 = s.len := by ring
  have harith2 : (1 : Int) + s.len + -1 = s.len := by ring
  simp only [designedComponents, harith1, harith2]

/-- C5 witness: "A1-2, -1, B1-2" maps to "A1-2, -1, A2-3" (the second selector
starts at 2, one less than the 3 it would get without the -1). -/
theorem c5_witness :
    (1 : Int) ≤ Selector.len ⟨'A', 1, 2⟩ ∧ (1 : Int) ≤ Selector.len ⟨'B', 1, 2⟩ ∧
    Selector.len ⟨'A', 1, 2⟩ + Selector.len ⟨'B', 1, 2⟩ - 1 ≤ 99999 ∧
    (Motif.mk [Component.sel ⟨'A', 1, 2⟩, Component.int (-1), Component.sel ⟨'B', 1, 2⟩]
        '/').get_motif_wrt_designed_structure 'A' =
      .ok (Motif.mk [Component.sel ⟨'A', 1, 2⟩, Component.int (-1),
        Component.sel ⟨'A', 2, 3⟩] '/') :=
  ⟨by decide, by decide, by decide,
    c5_amended ⟨'A', 1, 2⟩ ⟨'B', 1, 2⟩ (by decide) (by decide) (by decide)⟩

/-- C6: contrary to the claim (and to its own bool annotation), check_string is
not a total boolean validity test: on a pattern mismatch such as a786-790 the
ValueError raised by _pattern_check propagates out of check_string, and on a
pattern match such as A786-790 the conjunction short-circuits on the None
returned by _pattern_check, so the function returns None, never True or False. -/
theorem c6_check_string_behavior :
    Selector.check_string ['a', '7', '8', '6', '-', '7', '9', '0'] =
        .error Err.valueError ∧
      Selector.check_string ['A', '7', '8', '6', '-', '7', '9', '0'] = .ok none :=
  ⟨by rfl, by rfl⟩

/-- C7: selector_iter yields exactly the Selector components in original order
(mapping the yields back into components gives the filter by being a Selector),
and segment_iter yields exactly the integer components other than -1 in
original order including 0; on "A814-824, 10, -1, 25, B1-10" the selectors are
A814-824 and B1-10 and the segments are 10 and 25. -/
theorem c7_iters :
    (∀ m : Motif,
      m.selector_iter.map Component.sel = m.components.filter isSelectorComponent ∧
      m.segment_iter.map Component.int = m.components.filter isSegmentComponent) ∧
    (Motif.mk [Component.sel ⟨'A', 814, 824⟩, Component.int 10, Component.int (-1),
        Component.int 25, Component.sel ⟨'B', 1, 10⟩] '/').selector_iter =
      [⟨'A', 814, 824⟩, ⟨'B', 1, 10⟩] ∧
    (Motif.mk [Component.sel ⟨'A', 814, 824⟩, Component.int 10, Component.int (-1),
        Component.int 25, Component.sel ⟨'B', 1, 10⟩] '/').segment_iter = [10, 25] :=
  ⟨fun m => ⟨filterMap_sel_eq m.components, filterMap_seg_eq m.components⟩,
    by decide, by decide⟩

/-- C8: with more than 26 chain-segments, fully consuming the multi-chain
transform fails hard (every path ends in an error, the pool-exhaustion path in
IndexError); with at most 26 segments the 26-letter pool is never exhausted, so
no IndexError can occur (though selector validation may still raise ValueError). -/
theorem c8_chain_pool (m : Motif) :
    (26 < m.split_by_chain.length →
      exceptIsError m.get_motif_wrt_designed_structure_multi_chain = true) ∧
    (m.split_by_chain.length ≤ 26 →
      m.get_motif_wrt_designed_structure_multi_chain ≠ .error Err.indexError) := by
  have hlen : alphabetChars.reverse.length = 26 := by decide
  constructor
  · intro h
    rw [Motif.get_motif_wrt_designed_structure_multi_chain]
    exact multiChainGo_isError_of_long _ _ (by omega)
  · intro h
    rw [Motif.get_motif_wrt_designed_structure_multi_chain]
    exact multiChainGo_ne_index_of_short _ _ (by omega)

/-- C8 witness: a motif with 27 single-selector chain-segments fails when fully
consumed, and a one-segment motif does not raise IndexError. -/
theorem c8_witness :
    (26 < (Motif.mk (List.flatten (List.replicate 27
          [Component.sel ⟨'A', 1, 1⟩, Component.int 0])) '/').split_by_chain.length ∧
      exceptIsError (Motif.mk (List.flatten (List.replicate 27
          [Component.sel ⟨'A', 1, 1⟩, Component.int 0]))
          '/').get_motif_wrt_designed_structure_multi_chain = true) ∧
    ((Motif.mk [Component.int 1] '/').split_by_chain.length ≤ 26 ∧
      (Motif.mk [Component.int 1] '/').get_motif_wrt_designed_structure_multi_chain ≠
        .error Err.indexError) :=
  ⟨⟨by decide,
      (c8_chain_pool (Motif.mk (List.flatten (List.replicate 27
        [Component.sel ⟨'A', 1, 1⟩, Component.int 0])) '/')).1 (by decide)⟩,
    ⟨by decide, (c8_chain_pool (Motif.mk [Component.int 1] '/')).2 (by decide)⟩⟩

/-- C9: get_motif_deviation on two alignments whose cached motif sub-structures
have unequal atom counts fails the assertion check and computes no deviation;
with equal atom counts the assertion passes and the deviation is the rmsd of
the two coordinate arrays after superimposing the mobile one (the numeric
primitives being the external capabilities). -/
theorem c9_deviation {γ τ ρ : Type} (superimpose : List γ → List γ → List γ × τ)
    (rmsd : List γ → List γ → ρ) (a r : StructureAlignment γ) :
    (a._motif_structure.atom_array.length ≠ r._motif_structure.atom_array.length →
      StructureAlignment.get_motif_deviation superimpose rmsd a r =
        .error Err.assertionError) ∧
    (a._motif_structure.atom_array.length = r._motif_structure.atom_array.length →
      StructureAlignment.get_motif_deviation superimpose rmsd a r =
        .ok (rmsd r._motif_structure.atom_array
          (superimpose r._motif_structure.atom_array
            a._motif_structure.atom_array).1)) := by
  constructor
  · intro h
    rw [StructureAlignment.get_motif_deviation, if_neg h]
  · intro h
    rw [StructureAlignment.get_motif_deviation, if_pos h,
      root_mean_square_deviation, if_pos h.symm]

/-- C9 witness: a two-atom against a one-atom alignment fails the assertion;
a two-atom alignment against itself passes and returns the rmsd value. -/
theorem c9_witness :
    ((StructureAlignment.make (fun s _ => s) ⟨[(0 : Int), 1]⟩
          (Motif.mk [] '/'))._motif_structure.atom_array.length ≠
        (StructureAlignment.make (fun s _ => s) ⟨[(0 : Int)]⟩
          (Motif.mk [] '/'))._motif_structure.atom_array.length ∧
      StructureAlignment.get_motif_deviation
          (fun _ y => ((y, ()) : List Int × Unit)) (fun _ _ => (7 : Int))
          (StructureAlignment.make (fun s _ => s) ⟨[(0 : Int), 1]⟩ (Motif.mk [] '/'))
          (StructureAlignment.make (fun s _ => s) ⟨[(0 : Int)]⟩ (Motif.mk [] '/')) =
        .error Err.assertionError) ∧
    StructureAlignment.get_motif_deviation
        (fun _ y => ((y, ()) : List Int × Unit)) (fun _ _ => (7 : Int))
        (StructureAlignment.make (fun s _ => s) ⟨[(0 : Int), 1]⟩ (Motif.mk [] '/'))
        (StructureAlignment.make (fun s _ => s) ⟨[(0 : Int), 1]⟩ (Motif.mk [] '/')) =
      .ok 7 :=
  ⟨⟨by decide,
      (c9_deviation (fun _ y => ((y, ()) : List Int × Unit)) (fun _ _ => (7 : Int))
        (StructureAlignment.make (fun s _ => s) ⟨[(0 : Int), 1]⟩ (Motif.mk [] '/'))
        (StructureAlignment.make (fun s _ => s) ⟨[(0 : Int)]⟩ (Motif.mk [] '/'))).1
        (by decide)⟩,
    (c9_deviation (fun _ y => ((y, ()) : List Int × Unit)) (fun _ _ => (7 : Int))
      (StructureAlignment.make (fun s _ => s) ⟨[(0 : Int), 1]⟩ (Motif.mk [] '/'))
      (StructureAlignment.make (fun s _ => s) ⟨[(0 : Int), 1]⟩ (Motif.mk [] '/'))).2 rfl⟩

/-- C10: Motif equality compares both the component list and the delimiter, so
two Motifs with identical components but different delimiters are unequal. -/
theorem c10_motif_equality :
    (∀ m1 m2 : Motif,
      m1 = m2 ↔ m1.components = m2.components ∧ m1.delim = m2.delim) ∧
    Motif.mk [Component.int 25] '/' ≠ Motif.mk [Component.int 25] ',' :=
  ⟨fun m1 m2 => by
    cases m1
    cases m2
    simp [Motif.mk.injEq], by decide⟩

end ProteinBee
